import Mathlib

/-!
Verification of the Trading_bot core against its specification.

Shallow embedding of the Python sources under src/.  Prices, sizes,
balances and wall-clock instants are modelled as rationals; wall-clock
reads (time.time in the source) become explicit parameters.  Code that
can raise an exception is modelled with Option, where none stands for a
propagated exception.
-/

namespace TradingBot

/-! ## Order book model (src/models/orderbook.py) -/

/-- One price level of the book (orderbook.py, OrderBookLevel).
The exchange and timestamp fields are not used by any verified path. -/
structure OrderBookLevel where
  price : ℚ
  size : ℚ
deriving Repr, DecidableEq, Inhabited

/-- The order book (orderbook.py, OrderBook): the fields used by
is_valid, calculate_impact_price and estimate_execution_price. -/
structure OrderBook where
  symbol : String
  bids : List OrderBookLevel
  asks : List OrderBookLevel
deriving Repr, DecidableEq

/-- Side of a request.  The source passes the strings "buy" and "sell"
(lowercased before comparison); modelled as a two-value type. -/
inductive Side where
  | buy
  | sell
deriving Repr, DecidableEq

/-- The bid-sorting loop of is_valid (orderbook.py:247-249): fails when
some later price is strictly greater than its predecessor. -/
def bidsSortedOk : List OrderBookLevel → Bool
  | [] => true
  | [_] => true
  | a :: b :: t => !(b.price > a.price) && bidsSortedOk (b :: t)

/-- The ask-sorting loop of is_valid (orderbook.py:251-253): fails when
some later price is strictly less than its predecessor. -/
def asksSortedOk : List OrderBookLevel → Bool
  | [] => true
  | [_] => true
  | a :: b :: t => !(b.price < a.price) && asksSortedOk (b :: t)

/-- OrderBook.is_valid (orderbook.py:237-255). -/
def is_valid (ob : OrderBook) : Bool :=
  if ob.bids.isEmpty || ob.asks.isEmpty then false
  else if (ob.bids.headD default).price ≥ (ob.asks.headD default).price then false
  else bidsSortedOk ob.bids && asksSortedOk ob.asks

/-- Strictly descending adjacent prices. -/
def strictDesc : List OrderBookLevel → Bool
  | [] => true
  | [_] => true
  | a :: b :: t => decide (b.price < a.price) && strictDesc (b :: t)

/-- Strictly ascending adjacent prices. -/
def strictAsc : List OrderBookLevel → Bool
  | [] => true
  | [_] => true
  | a :: b :: t => decide (a.price < b.price) && strictAsc (b :: t)

/-- Modelled from the spec: validity as the specification words it
(spec.md section 8): both sides non-empty, best bid strictly below best
ask, bid prices strictly descending, ask prices strictly ascending, and
every level of both sides with size > 0.  Used only to compare the
spec reading of is_valid with the source function. -/
def isValidSpec (ob : OrderBook) : Bool :=
  !ob.bids.isEmpty && !ob.asks.isEmpty &&
  decide ((ob.bids.headD default).price < (ob.asks.headD default).price) &&
  strictDesc ob.bids && strictAsc ob.asks &&
  ob.bids.all (fun l => decide (l.size > 0)) &&
  ob.asks.all (fun l => decide (l.size > 0))

/-- The level walk shared by calculate_impact_price and
estimate_execution_price (orderbook.py:106-111, 320-325): consume the
requested size level by level, accumulating size*price; returns the
accumulated amount together with the remaining unfilled size. -/
def walkLevels : List OrderBookLevel → ℚ → ℚ → ℚ × ℚ
  | [], remaining, total => (total, remaining)
  | l :: ls, remaining, total =>
    if remaining ≤ 0 then (total, remaining)
    else walkLevels ls (remaining - min remaining l.size)
      (total + min remaining l.size * l.price)

/-- OrderBook.calculate_impact_price (orderbook.py:99-131).  The value
⊤ models the float infinity returned for an unfillable buy; none models
the ZeroDivisionError raised when size = 0 reaches the final division. -/
def calculate_impact_price (ob : OrderBook) (size : ℚ) (side : Side) :
    Option (WithTop ℚ) :=
  let levels := match side with | .buy => ob.asks | .sell => ob.bids
  let walked := walkLevels levels size 0
  if walked.2 > 0 then
    some (match side with | .buy => ⊤ | .sell => (0 : WithTop ℚ))
  else if size = 0 then none
  else some ((walked.1 / size : ℚ) : WithTop ℚ)

/-- OrderBook.estimate_execution_price (orderbook.py:305-333): returns
(average price, slippage).  none models the IndexError on an empty side
and the ZeroDivisionError when the best price is 0. -/
def estimate_execution_price (ob : OrderBook) (size : ℚ) (side : Side) :
    Option (ℚ × ℚ) :=
  if size ≤ 0 then some (0, 0)
  else
    let levels := match side with | .buy => ob.asks | .sell => ob.bids
    match levels with
    | [] => none
    | l0 :: _ =>
      let base := l0.price
      let walked := walkLevels levels size 0
      if walked.2 > 0 then some (0, 0)
      else if base = 0 then none
      else some (walked.1 / size, |walked.1 / size - base| / base)

/-! ## Position model (src/models/position.py) -/

/-- models/position.py, Position: the fields read or written by the
verified paths.  price_history is the append-only list of
(timestamp, price) pairs built by update_price. -/
structure Position where
  symbol : String
  side : String
  entry_price : ℚ
  size : ℚ
  take_profit : ℚ
  stop_loss : ℚ
  current_price : ℚ
  unrealized_pnl : ℚ
  price_history : List (ℚ × ℚ)
deriving Repr, DecidableEq

/-- Position.update_price (position.py:36-45).  The wall-clock read
time.time() is the explicit argument now. -/
def update_price (p : Position) (new_price : ℚ) (now : ℚ) : Position :=
  { p with
    current_price := new_price
    price_history := p.price_history ++ [(now, new_price)]
    unrealized_pnl :=
      if p.side = "long" then (new_price - p.entry_price) * p.size
      else (p.entry_price - new_price) * p.size }

/-! ## Risk manager model (src/core/risk_manager.py) -/

/-- A closed-trade record as consumed by on_trade_closed; only the pnl
key is read by the risk manager. -/
structure TradeResult where
  pnl : ℚ
deriving Repr, DecidableEq

/-- RiskManager state (risk_manager.py:18-40): configuration fields
plus the mutable risk state.  positions is the insertion-ordered dict
of open positions, modelled as an association list. -/
structure RiskManager where
  max_position_size : ℚ
  max_total_risk : ℚ
  max_correlated_positions : ℕ
  max_drawdown_pct : ℚ
  pause_after_losses : ℕ
  initial_balance : ℚ
  current_balance : ℚ
  peak_balance : ℚ
  positions : List (String × Position)
  trades_history : List TradeResult
  daily_pnl : List ℚ
  consecutive_losses : ℕ
  is_trading_allowed : Bool
  trading_paused_until : ℚ
deriving Repr, DecidableEq

/-- Dictionary lookup on the insertion-ordered position map. -/
def lookupPos (ps : List (String × Position)) (s : String) : Option Position :=
  (ps.find? (fun kv => kv.1 = s)).map (fun kv => kv.2)

/-- RiskManager.calculate_drawdown (risk_manager.py:50-54). -/
def calculate_drawdown (rm : RiskManager) : ℚ :=
  if rm.peak_balance = 0 then 0
  else (rm.peak_balance - rm.current_balance) / rm.peak_balance * 100

/-- Outcome of one call to RiskManager.calculate_correlation: a float
value, a float NaN, or a raised exception. -/
inductive CorrResult where
  | val (q : ℚ)
  | nan
  | err
deriving Repr, DecidableEq

/-- The branch of calculate_correlation reached when both histories
hold strictly more than 100 entries (risk_manager.py:67-70).  The
source feeds lists of (timestamp, price) tuples into np.diff and
np.corrcoef: np.diff runs along the last axis, so returns1 has shape
(100, 1) while the divisor slice has shape (100, 2), and the result of
the broadcast division is a (100, 2) array of per-tuple quantities,
not a vector of percentage returns.  np.corrcoef of the two (100, 2)
arrays treats every row as a 2-observation variable, and its [0, 1]
entry correlates rows 0 and 1 of the first array only: the value is the
sign (+1 or -1) of the product of the two row increments, NaN when an
increment vanishes or a divisor is 0 (float division by zero produces
inf or NaN, which corrcoef turns into NaN). -/
def npCorrLong (h : List (ℚ × ℚ)) : CorrResult :=
  let n := h.length
  let a := h.getD (n - 100) (0, 0)
  let a' := h.getD (n - 101) (0, 0)
  let b := h.getD (n - 99) (0, 0)
  if a'.1 = 0 ∨ a'.2 = 0 ∨ a.1 = 0 ∨ a.2 = 0 then .nan
  else
    let dx := (a.2 - a.1) / a'.2 - (a.2 - a.1) / a'.1
    let dy := (b.2 - b.1) / a.2 - (b.2 - b.1) / a.1
    if dx * dy > 0 then .val 1
    else if dx * dy < 0 then .val (-1)
    else .nan

/-- RiskManager.calculate_correlation (risk_manager.py:56-70) with the
default window of 100.  Returns val 0 when either symbol has no open
position or either history is shorter than the window.  When both
histories have at least 100 entries the numpy expression is evaluated
on the (timestamp, price) tuples: a history of length exactly 100 makes
the divisor slice one row shorter than the diff and the broadcast
raises ValueError (err); longer histories produce the npCorrLong
value. -/
def calculate_correlation (rm : RiskManager) (s1 s2 : String) : CorrResult :=
  match lookupPos rm.positions s1, lookupPos rm.positions s2 with
  | some p1, some p2 =>
    if p1.price_history.length < 100 ∨ p2.price_history.length < 100 then .val 0
    else if p1.price_history.length = 100 ∨ p2.price_history.length = 100 then .err
    else npCorrLong p1.price_history
  | _, _ => .val 0

/-- The correlated-position loop of can_open_position
(risk_manager.py:150-155): counts open positions whose correlation with
symbol has absolute value above 0.7; none when a correlation raises.
A NaN compares false against 0.7 and is never counted. -/
def countCorrelated (rm : RiskManager) (symbol : String) :
    List (String × Position) → Option ℕ
  | [] => some 0
  | kv :: rest =>
    match calculate_correlation rm symbol kv.1 with
    | .err => none
    | .nan => countCorrelated rm symbol rest
    | .val q =>
      (countCorrelated rm symbol rest).map
        (fun c => if |q| > 7/10 then c + 1 else c)

/-- RiskManager.can_open_position (risk_manager.py:118-161), with the
wall-clock read time.time() as the explicit argument now.  none models
a propagated exception: the ZeroDivisionError when current_balance is 0
at the size check, or a ValueError from the correlation loop. -/
def can_open_position (rm : RiskManager) (now : ℚ) (symbol : String)
    (size price : ℚ) : Option Bool :=
  if rm.is_trading_allowed = false then some false
  else if now < rm.trading_paused_until then some false
  else if calculate_drawdown rm ≥ rm.max_drawdown_pct then some false
  else if rm.current_balance = 0 then none
  else if size * price / rm.current_balance > rm.max_position_size then some false
  else
    let total_exposure :=
      (rm.positions.map (fun kv => |kv.2.size * kv.2.current_price|)).sum
    if (total_exposure + size * price) / rm.current_balance > rm.max_total_risk then
      some false
    else
      match countCorrelated rm symbol rm.positions with
      | none => none
      | some c => if c ≥ rm.max_correlated_positions then some false else some true

/-- RiskManager.on_trade_closed (risk_manager.py:163-180), with the
wall-clock read time.time() as the explicit argument now. -/
def on_trade_closed (rm : RiskManager) (r : TradeResult) (now : ℚ) : RiskManager :=
  { rm with
    trades_history := rm.trades_history ++ [r]
    consecutive_losses := if r.pnl < 0 then rm.consecutive_losses + 1 else 0
    trading_paused_until :=
      if r.pnl < 0 ∧ rm.consecutive_losses + 1 ≥ rm.pause_after_losses then now + 300
      else rm.trading_paused_until
    daily_pnl :=
      match rm.daily_pnl with
      | [] => [r.pnl]
      | l => l.dropLast ++ [l.getLastD 0 + r.pnl] }

/-- One row of the correlation matrix built by calculate_risk_metrics
(risk_manager.py:100-106): correlations of sym1 against the later
symbols; none when a correlation raises. -/
def corrRow (rm : RiskManager) (s : String) :
    List String → Option (List (String × CorrResult))
  | [] => some []
  | t :: ts =>
    match calculate_correlation rm s t with
    | .err => none
    | c => (corrRow rm s ts).map (fun r => (t, c) :: r)

/-- The correlation-matrix double loop of calculate_risk_metrics
(risk_manager.py:100-106) over the tail lists of the symbol list. -/
def corrMatrixAux (rm : RiskManager) :
    List String → Option (List (String × List (String × CorrResult)))
  | [] => some []
  | s :: rest => do
    let row ← corrRow rm s rest
    let m ← corrMatrixAux rm rest
    pure ((s, row) :: m)

/-- np.std of a list of rationals (population standard deviation), as
used for the Sharpe ratio. -/
noncomputable def np_std (l : List ℚ) : ℝ :=
  Real.sqrt (((l.map (fun x => ((x : ℝ) - (l.sum : ℝ) / (l.length : ℝ)) ^ 2)).sum) /
    (l.length : ℝ))

open scoped Classical in
/-- The Sharpe-ratio computation of calculate_risk_metrics
(risk_manager.py:93-98). -/
noncomputable def sharpeOf (l : List ℚ) : ℝ :=
  if 1 < l.length then
    if np_std l ≠ 0 then ((l.sum : ℝ) / (l.length : ℝ)) / np_std l * Real.sqrt 365
    else 0
  else 0

/-- RiskMetrics (risk_manager.py:8-16). -/
structure RiskMetrics where
  total_exposure : ℚ
  max_drawdown : ℚ
  daily_loss : ℚ
  win_rate : ℚ
  profit_factor : ℚ
  sharpe_value : ℝ
  correlation_matrix : List (String × List (String × CorrResult))

/-- RiskManager.calculate_risk_metrics (risk_manager.py:72-116).  none
models a ValueError propagated from the correlation matrix. -/
noncomputable def calculate_risk_metrics (rm : RiskManager) : Option RiskMetrics :=
  match corrMatrixAux rm (rm.positions.map (fun kv => kv.1)) with
  | none => none
  | some matrix =>
    let gross_profit := ((rm.trades_history.filter (fun t => t.pnl > 0)).map
      (fun t => t.pnl)).sum
    let gross_loss := |((rm.trades_history.filter (fun t => t.pnl < 0)).map
      (fun t => t.pnl)).sum|
    some
      { total_exposure :=
          (rm.positions.map (fun kv => |kv.2.size * kv.2.current_price|)).sum
        max_drawdown := calculate_drawdown rm
        daily_loss := |min 0 (rm.daily_pnl.getLastD 0)|
        win_rate :=
          if rm.trades_history.isEmpty then 0
          else ((rm.trades_history.filter (fun t => t.pnl > 0)).length : ℚ) /
            (rm.trades_history.length : ℚ)
        profit_factor := if gross_loss ≠ 0 then gross_profit / gross_loss else 0
        sharpe_value := sharpeOf rm.daily_pnl
        correlation_matrix := matrix }

/-- The correlation-penalty loop of adjust_position_size
(risk_manager.py:190-193): running minimum of 1 - |correlation| over
the open positions, starting from 1.  A NaN correlation leaves the
running value unchanged, because Python min keeps its first argument
when the comparison with NaN is false; none when a correlation
raises. -/
def corrPenalty (rm : RiskManager) (symbol : String) :
    List (String × Position) → Option ℚ
  | [] => some 1
  | kv :: rest =>
    match calculate_correlation rm symbol kv.1 with
    | .err => none
    | .nan => corrPenalty rm symbol rest
    | .val q => (corrPenalty rm symbol rest).map (fun p => min p (1 - |q|))

/-- RiskManager.adjust_position_size (risk_manager.py:182-204).  none
models a propagated exception: a correlation ValueError (from the
metrics matrix or the penalty loop) or the ZeroDivisionError when
max_drawdown_pct is 0. -/
noncomputable def adjust_position_size (rm : RiskManager) (base_size : ℚ)
    (symbol : String) : Option ℚ :=
  match calculate_risk_metrics rm with
  | none => none
  | some m =>
    if rm.max_drawdown_pct = 0 then none
    else
      match corrPenalty rm symbol rm.positions with
      | none => none
      | some pen =>
        let ddf := max 0 (1 - m.max_drawdown / rm.max_drawdown_pct)
        let perf := min 1 (m.profit_factor / 2)
        let adjusted := base_size * ddf * pen * perf
        some (max (base_size * (1/5)) (min adjusted (base_size * (3/2))))

/-! ## Position manager model (src/core/position_manager.py) -/

/-- PositionManager.should_close_position (position_manager.py:105-118). -/
def should_close_position (p : Position) : Bool :=
  if p.side = "long" then
    decide (p.current_price ≥ p.take_profit) || decide (p.current_price ≤ p.stop_loss)
  else
    decide (p.current_price ≤ p.take_profit) || decide (p.current_price ≥ p.stop_loss)

/-- The per-position body of PositionManager.update_positions
(position_manager.py:92-100): apply the exchange quote through
Position.update_price, then evaluate the close condition.  Returns the
updated position and the close decision. -/
def update_position_step (p : Position) (quote now : ℚ) : Position × Bool :=
  let p' := update_price p quote now
  (p', should_close_position p')

/-- PositionManager.update_positions (position_manager.py:90-103) over
the open-position map, with the exchange collaborator getPrice as an
oracle.  The close order submission itself is out of scope; the Bool
records whether close_position is invoked for that symbol. -/
def update_positions (ps : List (String × Position)) (getPrice : String → ℚ)
    (now : ℚ) : List (String × Position × Bool) :=
  ps.map (fun kv => (kv.1, update_position_step kv.2 (getPrice kv.1) now))

/-- The signal dict consumed by PositionManager.open_position
(position_manager.py:15-54). -/
structure Signal where
  symbol : String
  side : String
  entry_price : ℚ
  size : ℚ
  take_profit : ℚ
  stop_loss : ℚ
deriving Repr, DecidableEq

/-- The order dict returned by the exchange collaborator place_order. -/
structure OrderResult where
  status : String
  price : ℚ
  size : ℚ
deriving Repr, DecidableEq

/-- PositionManager state: the risk manager it consults and its own
open-position map (position_manager.py:7-13). -/
structure PMState where
  risk : RiskManager
  positions : List (String × Position)
deriving Repr, DecidableEq

/-- Python dict assignment d[k] = v on an insertion-ordered map:
replace the binding in place when the key exists, append at the end
otherwise. -/
def updateAssoc : List (String × Position) → String → Position →
    List (String × Position)
  | [], k, v => [(k, v)]
  | kv :: t, k, v => if kv.1 = k then (k, v) :: t else kv :: updateAssoc t k v

/-- The Position constructed by open_position on a filled order
(position_manager.py:36-45): entry price and size from the order, exit
targets from the signal; current_price, unrealized_pnl and
price_history start at their dataclass defaults. -/
def mkPositionFromFill (sig : Signal) (ord : OrderResult) : Position :=
  { symbol := sig.symbol
    side := sig.side
    entry_price := ord.price
    size := ord.size
    take_profit := sig.take_profit
    stop_loss := sig.stop_loss
    current_price := 0
    unrealized_pnl := 0
    price_history := [] }

/-- PositionManager.open_position (position_manager.py:15-54), with the
exchange place_order response as an oracle.  A risk denial, a non-fill
status and a caught exception (the try block swallows every exception,
including a crash inside can_open_position) all return none and leave
the state unchanged; a filled order registers the new position under
the signal symbol, overwriting any position already stored there. -/
def open_position (st : PMState) (now : ℚ) (sig : Signal) (ord : OrderResult) :
    Option Position × PMState :=
  match can_open_position st.risk now sig.symbol sig.size sig.entry_price with
  | some true =>
    if ord.status = "filled" then
      let p := mkPositionFromFill sig ord
      (some p, { st with positions := updateAssoc st.positions sig.symbol p })
    else (none, st)
  | _ => (none, st)

/-! ## Composite strategy model
(src/strategies/combined/impulse_imbalance.py) -/

/-- A sub-strategy signal as read by the composite fusion logic: only
the side and entry_price keys are consumed. -/
structure SubSignal where
  side : String
  entry_price : ℚ
deriving Repr, DecidableEq

/-- An entry of the pending-signal table
(impulse_imbalance.py:97-108). -/
structure PendingEntry where
  ptype : String
  signal : SubSignal
  timestamp : ℚ
deriving Repr, DecidableEq

/-- The fused signal returned by should_open_position
(impulse_imbalance.py:85-94). -/
structure FusedSignal where
  side : String
  entry_price : ℚ
  take_profit : ℚ
  stop_loss : ℚ
  timestamp : ℚ
  confidence : String
deriving Repr, DecidableEq

/-- ImpulseImbalanceStrategy state (impulse_imbalance.py:8-26): the
fields read by should_open_position. -/
structure CompositeState where
  is_paused : Bool
  confirmation_window : ℚ
  take_profit_pct : ℚ
  stop_loss_pct : ℚ
  pending_signals : List (String × PendingEntry)
deriving Repr, DecidableEq

/-- The pending-signal cleanup (impulse_imbalance.py:63-66): keep the
entries within the confirmation window. -/
def prunePending (ps : List (String × PendingEntry)) (now win : ℚ) :
    List (String × PendingEntry) :=
  ps.filter (fun kv => now - kv.2.timestamp ≤ win)

/-- ImpulseImbalanceStrategy.validate_market_conditions
(impulse_imbalance.py:38-54): spread at most 0.1 percent and at least
100 units of liquidity in the top five levels of each side.  none
models the IndexError on an empty side and the ZeroDivisionError when
the best bid price is 0. -/
def validate_market_conditions (ob : OrderBook) : Option Bool :=
  match ob.bids, ob.asks with
  | b0 :: _, a0 :: _ =>
    if b0.price = 0 then none
    else if (a0.price - b0.price) / b0.price > 1/1000 then some false
    else if min ((ob.bids.take 5).map (fun l => l.size)).sum
        ((ob.asks.take 5).map (fun l => l.size)).sum < 100 then some false
    else some true
  | _, _ => none

/-- The single-signal bookkeeping at the end of should_open_position
(impulse_imbalance.py:96-108): when the symbol has no pending entry,
store the imbalance signal if present, otherwise the impulse signal if
present. -/
def storePending (st : CompositeState) (symbol : String) (now : ℚ)
    (imb imp : Option SubSignal) : CompositeState :=
  if st.pending_signals.any (fun kv => kv.1 = symbol) then st
  else
    match imb, imp with
    | some s, _ =>
      { st with pending_signals :=
          st.pending_signals ++ [(symbol, ⟨"imbalance", s, now⟩)] }
    | none, some s =>
      { st with pending_signals :=
          st.pending_signals ++ [(symbol, ⟨"impulse", s, now⟩)] }
    | none, none => st

/-- The fused signal built when both sub-strategies agree
(impulse_imbalance.py:78-94). -/
def fuseSignals (st : CompositeState) (now : ℚ) (s1 s2 : SubSignal) : FusedSignal :=
  let e := if s1.side = "long" then max s1.entry_price s2.entry_price
           else min s1.entry_price s2.entry_price
  { side := s1.side
    entry_price := e
    take_profit := if s1.side = "long" then e * (1 + st.take_profit_pct)
                   else e * (1 - st.take_profit_pct)
    stop_loss := if s1.side = "long" then e * (1 - st.stop_loss_pct)
                 else e * (1 + st.stop_loss_pct)
    timestamp := now
    confidence := "high" }

/-- ImpulseImbalanceStrategy.should_open_position
(impulse_imbalance.py:56-110), with the wall-clock read as now, the
order book for the symbol as an argument, and the two sub-strategy
evaluations (imbalance first, impulse second) as oracles.  Returns the
produced signal (if any) together with the updated strategy state; the
outer none models an exception from validate_market_conditions. -/
def should_open_position (st : CompositeState) (symbol : String) (now : ℚ)
    (book : OrderBook) (imb imp : Option SubSignal) :
    Option (Option FusedSignal × CompositeState) :=
  if st.is_paused then some (none, st)
  else
    let st1 := { st with
      pending_signals := prunePending st.pending_signals now st.confirmation_window }
    match validate_market_conditions book with
    | none => none
    | some false => some (none, st1)
    | some true =>
      match imb, imp with
      | some s1, some s2 =>
        if s1.side = s2.side then some (some (fuseSignals st1 now s1 s2), st1)
        else some (none, storePending st1 symbol now (some s1) (some s2))
      | _, _ => some (none, storePending st1 symbol now imb imp)

/-! ## Shared lemmas -/

theorem bidsSortedOk_iff (l : List OrderBookLevel) :
    bidsSortedOk l = true ↔ l.Chain' (fun a b => b.price ≤ a.price) := by
  induction l with
  | nil => simp [bidsSortedOk]
  | cons a t ih =>
    cases t with
    | nil => simp [bidsSortedOk]
    | cons b t2 =>
      rw [bidsSortedOk, List.chain'_cons, Bool.and_eq_true, ← ih]
      simp [not_lt]

theorem asksSortedOk_iff (l : List OrderBookLevel) :
    asksSortedOk l = true ↔ l.Chain' (fun a b => a.price ≤ b.price) := by
  induction l with
  | nil => simp [asksSortedOk]
  | cons a t ih =>
    cases t with
    | nil => simp [asksSortedOk]
    | cons b t2 =>
      rw [asksSortedOk, List.chain'_cons, Bool.and_eq_true, ← ih]
      simp [not_lt]

/-! ## Claim C2 -/

/-- Concrete book: duplicated bid price and a zero-size ask level. -/
def cbook2 : OrderBook :=
  { symbol := "S"
    bids := [⟨100, 5⟩, ⟨100, 3⟩]
    asks := [⟨101, 0⟩] }

/-- C2 counterexample: is_valid accepts a book whose bid prices are not
strictly descending and whose only ask level has size 0, while the
claim (strict ordering on both sides and all sizes positive, as
isValidSpec words it) requires rejection. -/
theorem c2_counterexample : is_valid cbook2 = true ∧ isValidSpec cbook2 = false := by
  constructor <;> rfl

/-- C2 (amended): is_valid holds iff both sides are non-empty, the best
bid price is strictly below the best ask price, bid prices are
non-strictly descending and ask prices are non-strictly ascending;
equal adjacent prices are accepted and level sizes are not checked. -/
theorem c2_is_valid_characterization (ob : OrderBook) :
    is_valid ob = true ↔
      ob.bids ≠ [] ∧ ob.asks ≠ [] ∧
      (ob.bids.headD default).price < (ob.asks.headD default).price ∧
      ob.bids.Chain' (fun a b => b.price ≤ a.price) ∧
      ob.asks.Chain' (fun a b => a.price ≤ b.price) := by
  rw [is_valid]
  by_cases hb : ob.bids.isEmpty
  · simp [hb, List.isEmpty_iff.mp hb]
  · by_cases ha : ob.asks.isEmpty
    · simp [hb, ha, List.isEmpty_iff.mp ha]
    · rw [if_neg (by simp [hb, ha])]
      by_cases hlt : (ob.bids.headD default).price ≥ (ob.asks.headD default).price
      · simp only [if_pos hlt]
        constructor
        · intro h; exact absurd h (by simp)
        · intro h; exact absurd h.2.2.1 (not_lt.mpr hlt)
      · rw [if_neg hlt, Bool.and_eq_true, bidsSortedOk_iff, asksSortedOk_iff]
        constructor
        · intro h
          exact ⟨fun h2 => hb (by simp [h2]), fun h2 => ha (by simp [h2]),
            not_le.mp hlt, h.1, h.2⟩
        · intro h; exact ⟨h.2.2.2.1, h.2.2.2.2⟩

/-! ## Claim C4 -/

theorem walkLevels_remaining (ls : List OrderBookLevel) :
    ∀ (rem tot : ℚ), (∀ l ∈ ls, 0 ≤ l.size) →
      ((ls.map fun l => l.size).sum) < rem →
      (walkLevels ls rem tot).2 = rem - (ls.map fun l => l.size).sum := by
  induction ls with
  | nil => intro rem tot _ _; simp [walkLevels]
  | cons l t ih =>
    intro rem tot hs hd
    have hlz : 0 ≤ l.size := hs l (by simp)
    have htz : 0 ≤ ((t.map fun x => x.size).sum) :=
      List.sum_nonneg (by
        intro x hx
        obtain ⟨y, hy, rfl⟩ := List.mem_map.mp hx
        exact hs y (by simp [hy]))
    have hsum : (((l :: t).map fun x => x.size).sum) = l.size + (t.map fun x => x.size).sum := by
      simp
    rw [hsum] at hd
    have hrem : 0 < rem := lt_of_le_of_lt (by linarith) hd
    have hmin : min rem l.size = l.size := by
      apply min_eq_right
      linarith
    rw [walkLevels, if_neg (not_le.mpr hrem), hmin]
    rw [ih (rem - l.size) (tot + l.size * l.price) (fun x hx => hs x (by simp [hx]))
      (by linarith)]
    rw [hsum]
    ring

/-- C4 (amended): for a buy whose size strictly exceeds the total ask
depth of a book with a non-empty ask side of non-negative level sizes,
calculate_impact_price returns the infinite-cost sentinel, while
estimate_execution_price returns the pair (0, 0) — the same zero
sentinel it uses for sells — and not an infinite value. -/
theorem c4_unfillable_sentinels (ob : OrderBook) (size : ℚ)
    (hs : ∀ l ∈ ob.asks, 0 ≤ l.size)
    (hd : ((ob.asks.map fun l => l.size).sum) < size)
    (hne : ob.asks ≠ []) :
    estimate_execution_price ob size .buy = some (0, 0) ∧
    calculate_impact_price ob size .buy = some ⊤ := by
  have hsumnn : 0 ≤ ((ob.asks.map fun l => l.size).sum) :=
    List.sum_nonneg (by
      intro x hx
      obtain ⟨y, hy, rfl⟩ := List.mem_map.mp hx
      exact hs y hy)
  have hpos : 0 < size := lt_of_le_of_lt hsumnn hd
  have hwalk : (walkLevels ob.asks size 0).2 = size - (ob.asks.map fun l => l.size).sum :=
    walkLevels_remaining ob.asks size 0 hs hd
  have hrempos : (walkLevels ob.asks size 0).2 > 0 := by rw [hwalk]; linarith
  obtain ⟨l0, t, hasks⟩ := List.exists_cons_of_ne_nil hne
  rw [hasks] at hrempos
  constructor
  · simp only [estimate_execution_price, hasks, if_neg (not_le.mpr hpos)]
    rw [if_pos hrempos]
  · simp only [calculate_impact_price, hasks]
    rw [if_pos hrempos]

/-- Concrete book for the C4 counterexample. -/
def book4 : OrderBook :=
  { symbol := "S"
    bids := [⟨100, 5⟩]
    asks := [⟨101, 5⟩] }

/-- C4 counterexample: a buy of size 10 against total ask depth 5
makes estimate_execution_price return (0, 0) — a zero price, not the
claimed infinite-cost sentinel; the infinity is produced only by
calculate_impact_price. -/
theorem c4_counterexample :
    estimate_execution_price book4 10 .buy = some (0, 0) ∧
    calculate_impact_price book4 10 .buy = some ⊤ := by
  constructor <;>
    norm_num [estimate_execution_price, calculate_impact_price, walkLevels,
      book4, min_def]

/-- Concrete book for the C4 witness. -/
def book4w : OrderBook :=
  { symbol := "W"
    bids := [⟨99, 2⟩]
    asks := [⟨101, 3⟩, ⟨102, 2⟩] }

/-- C4 witness: the amended theorem applied to a concrete book and
size. -/
theorem c4_witness :
    estimate_execution_price book4w 7 .buy = some (0, 0) ∧
    calculate_impact_price book4w 7 .buy = some ⊤ :=
  c4_unfillable_sentinels book4w 7 (by decide) (by norm_num [book4w]) (by decide)

/-! ## Claim C6 -/

theorem dropLast_append_getLastD (l : List ℚ) (h : l ≠ []) :
    l.dropLast ++ [l.getLastD 0] = l := by
  induction l with
  | nil => exact absurd rfl h
  | cons a t ih =>
    cases t with
    | nil => rfl
    | cons b t2 =>
      have := ih (by simp)
      simpa [List.dropLast] using this

/-- C6 (amended): every call to on_trade_closed appends the result to
the trade history, increments the consecutive-loss counter on a loss
and resets it otherwise, sets the pause deadline to now + 300 exactly
when a loss brings the streak to pause_after_losses, and adds the pnl
into the last daily-PnL bucket, creating the single first bucket when
the list is empty; the number of buckets never grows past its previous
size, so no new bucket is started when the wall-clock date changes
(that behaviour lives in the separate utils/metrics MetricsManager, not
in RiskManager). -/
theorem c6_on_trade_closed (rm : RiskManager) (r : TradeResult) (now : ℚ) :
    (on_trade_closed rm r now).trades_history = rm.trades_history ++ [r] ∧
    (on_trade_closed rm r now).consecutive_losses =
      (if r.pnl < 0 then rm.consecutive_losses + 1 else 0) ∧
    (on_trade_closed rm r now).trading_paused_until =
      (if r.pnl < 0 ∧ rm.consecutive_losses + 1 ≥ rm.pause_after_losses then now + 300
       else rm.trading_paused_until) ∧
    (on_trade_closed rm r now).daily_pnl.length = max 1 rm.daily_pnl.length ∧
    (on_trade_closed rm r now).daily_pnl.sum = rm.daily_pnl.sum + r.pnl := by
  refine ⟨rfl, rfl, rfl, ?_, ?_⟩
  · cases hl : rm.daily_pnl with
    | nil => simp [on_trade_closed, hl]
    | cons a t =>
      have hlen : (a :: t).dropLast.length = (a :: t).length - 1 := by
        simp [List.length_dropLast]
      simp only [on_trade_closed, hl]
      simp [hlen]
  · cases hl : rm.daily_pnl with
    | nil => simp [on_trade_closed, hl]
    | cons a t =>
      have hsplit := dropLast_append_getLastD (a :: t) (by simp)
      simp only [on_trade_closed, hl]
      calc ((a :: t).dropLast ++ [(a :: t).getLastD 0 + r.pnl]).sum
          = (a :: t).dropLast.sum + ((a :: t).getLastD 0 + r.pnl) := by
            simp
        _ = ((a :: t).dropLast.sum + (a :: t).getLastD 0) + r.pnl := by ring
        _ = ((a :: t).dropLast ++ [(a :: t).getLastD 0]).sum + r.pnl := by simp
        _ = (a :: t).sum + r.pnl := by rw [hsplit]

/-- Base state for the C6 counterexample: a fresh risk manager. -/
def rm6 : RiskManager :=
  { max_position_size := 1/20
    max_total_risk := 1/2
    max_correlated_positions := 3
    max_drawdown_pct := 10
    pause_after_losses := 3
    initial_balance := 100000
    current_balance := 100000
    peak_balance := 100000
    positions := []
    trades_history := []
    daily_pnl := []
    consecutive_losses := 0
    is_trading_allowed := true
    trading_paused_until := 0 }

/-- C6 counterexample: two profitable closures two wall-clock days
apart (the second at 172800 = 2 * 86400 seconds) end with the single
daily-PnL bucket [8]; the claim requires a fresh bucket for the new
date, which would leave [5, 3]. -/
theorem c6_counterexample :
    (on_trade_closed (on_trade_closed rm6 ⟨5⟩ 0) ⟨3⟩ 172800).daily_pnl = [8] := by
  norm_num [on_trade_closed, rm6]

/-! ## Claim C8 -/

/-- Open long position for the C8 failing input. -/
def pos8 : Position :=
  { symbol := "BTC-USDT"
    side := "long"
    entry_price := 50000
    size := 1/10
    take_profit := 51000
    stop_loss := 49000
    current_price := 50000
    unrealized_pnl := 100
    price_history := [] }

/-- C8: evaluation of the monitoring path at the failing input.  With
one open long position and the exchange collaborator get_price
returning 0 (the documented no-quote value), update_positions passes
the 0 straight into Position.update_price: the position's
current_price becomes 0, its unrealized PnL becomes the full notional
loss -5000, and the stop-loss comparison fires, so the position is
closed against the 0 quote — the monitoring path never treats 0 as
"no quote". -/
theorem c8_zero_quote_applied :
    (update_positions [("BTC-USDT", pos8)] (fun _ => 0) 1000).map
      (fun kv => (kv.2.1.current_price, kv.2.1.unrealized_pnl, kv.2.2)) =
      [(0, -5000, true)] := by
  norm_num [update_positions, update_position_step, update_price,
    should_close_position, pos8]

/-! ## Claim C1 -/

theorem can_open_position_paused (rm : RiskManager) (now : ℚ) (sym : String)
    (size price : ℚ) (h : now < rm.trading_paused_until) :
    can_open_position rm now sym size price = some false := by
  rw [can_open_position]
  by_cases ha : rm.is_trading_allowed = false
  · rw [if_pos ha]
  · rw [if_neg ha, if_pos h]

theorem foldl_losses_paused (trades : List (TradeResult × ℚ)) :
    ∀ (rm : RiskManager) (hne : trades ≠ []),
      (∀ x ∈ trades, x.1.pnl < 0) →
      rm.pause_after_losses ≤ rm.consecutive_losses + trades.length →
      (trades.foldl (fun s x => on_trade_closed s x.1 x.2) rm).trading_paused_until =
        (trades.getLast hne).2 + 300 := by
  induction trades with
  | nil => intro rm hne _ _; exact absurd rfl hne
  | cons x rest ih =>
    intro rm _ hl hth
    cases rest with
    | nil =>
      have hx : x.1.pnl < 0 := hl x (by simp)
      simp only [List.foldl, List.getLast]
      simp only [on_trade_closed]
      rw [if_pos ⟨hx, by simpa using hth⟩]
    | cons y t =>
      have hx : x.1.pnl < 0 := hl x (by simp)
      have hstep : (on_trade_closed rm x.1 x.2).consecutive_losses =
          rm.consecutive_losses + 1 := by
        simp [on_trade_closed, hx]
      have hpal : (on_trade_closed rm x.1 x.2).pause_after_losses =
          rm.pause_after_losses := rfl
      have hgl : (x :: y :: t).getLast (by simp) = (y :: t).getLast (by simp) := by
        simp [List.getLast]
      rw [List.foldl_cons]
      rw [show ((x :: y :: t).getLast (by simp)).2 = ((y :: t).getLast (by simp)).2 by
        rw [hgl]]
      apply ih (on_trade_closed rm x.1 x.2) (by simp)
        (fun z hz => hl z (by simp [hz]))
      rw [hstep, hpal]
      simp only [List.length_cons] at hth ⊢
      omega

/-- C1: starting from a zero loss streak, exactly pause_after_losses
consecutive losing closures (the list of (result, wall-clock) pairs,
all with pnl < 0) set the pause deadline to 300 seconds after the
triggering loss; while the wall clock is inside that window
can_open_position answers false for every request, and a subsequent
non-losing closure inside the window neither moves the deadline nor
re-enables trading, so the pause is not cleared early.  (The claim
reads isTradingAllowed as the trading-allowed predicate, which the
source realizes as can_open_position returning false; the boolean
attribute itself is only ever read, never written, after
construction.) -/
theorem c1_pause_after_losses (rm : RiskManager) (trades : List (TradeResult × ℚ))
    (hne : trades ≠ []) (h0 : rm.consecutive_losses = 0)
    (hn : trades.length = rm.pause_after_losses)
    (hl : ∀ x ∈ trades, x.1.pnl < 0) :
    (trades.foldl (fun s x => on_trade_closed s x.1 x.2) rm).trading_paused_until =
      (trades.getLast hne).2 + 300 ∧
    (∀ t sym size price,
      t < (trades.foldl (fun s x => on_trade_closed s x.1 x.2) rm).trading_paused_until →
      can_open_position (trades.foldl (fun s x => on_trade_closed s x.1 x.2) rm)
        t sym size price = some false) ∧
    (∀ w tw, ¬ w.pnl < 0 →
      (on_trade_closed (trades.foldl (fun s x => on_trade_closed s x.1 x.2) rm) w tw
        ).trading_paused_until =
        (trades.foldl (fun s x => on_trade_closed s x.1 x.2) rm).trading_paused_until ∧
      (∀ t sym size price,
        t < (trades.foldl (fun s x => on_trade_closed s x.1 x.2) rm).trading_paused_until →
        can_open_position
          (on_trade_closed (trades.foldl (fun s x => on_trade_closed s x.1 x.2) rm) w tw)
          t sym size price = some false)) := by
  have hfold := foldl_losses_paused trades rm hne hl (by rw [h0, hn]; omega)
  refine ⟨hfold, ?_, ?_⟩
  · intro t sym size price ht
    exact can_open_position_paused _ t sym size price ht
  · intro w tw hw
    have hpres : (on_trade_closed
        (trades.foldl (fun s x => on_trade_closed s x.1 x.2) rm) w tw
        ).trading_paused_until =
        (trades.foldl (fun s x => on_trade_closed s x.1 x.2) rm).trading_paused_until := by
      simp [on_trade_closed, hw]
    refine ⟨hpres, ?_⟩
    intro t sym size price ht
    apply can_open_position_paused
    rw [hpres]
    exact ht

/-- Base state for the C1 witness: pause threshold of two losses. -/
def rm1w : RiskManager :=
  { max_position_size := 1/20
    max_total_risk := 1/2
    max_correlated_positions := 3
    max_drawdown_pct := 10
    pause_after_losses := 2
    initial_balance := 100000
    current_balance := 100000
    peak_balance := 100000
    positions := []
    trades_history := []
    daily_pnl := []
    consecutive_losses := 0
    is_trading_allowed := true
    trading_paused_until := 0 }

/-- C1 witness: two losing closures at times 10 and 20 pause trading
until 320; at time 100 a request is denied, and it is still denied
after a profitable closure at time 50. -/
theorem c1_witness :
    ((([(⟨-1⟩, 10), (⟨-1⟩, 20)] : List (TradeResult × ℚ)).foldl
      (fun s x => on_trade_closed s x.1 x.2) rm1w).trading_paused_until = 20 + 300) ∧
    can_open_position
      (([(⟨-1⟩, 10), (⟨-1⟩, 20)] : List (TradeResult × ℚ)).foldl
        (fun s x => on_trade_closed s x.1 x.2) rm1w) 100 "X" 1 1 = some false ∧
    can_open_position
      (on_trade_closed
        (([(⟨-1⟩, 10), (⟨-1⟩, 20)] : List (TradeResult × ℚ)).foldl
          (fun s x => on_trade_closed s x.1 x.2) rm1w) ⟨7⟩ 50) 100 "X" 1 1 = some false := by
  have h := c1_pause_after_losses rm1w [(⟨-1⟩, 10), (⟨-1⟩, 20)] (by simp) rfl rfl
    (by decide)
  have hgl : (([(⟨-1⟩, 10), (⟨-1⟩, 20)] : List (TradeResult × ℚ)).getLast (by simp)).2 =
      (20 : ℚ) := rfl
  have hlt : (100 : ℚ) <
      (([(⟨-1⟩, 10), (⟨-1⟩, 20)] : List (TradeResult × ℚ)).foldl
        (fun s x => on_trade_closed s x.1 x.2) rm1w).trading_paused_until := by
    rw [h.1, hgl]; norm_num
  exact ⟨by rw [h.1, hgl], h.2.1 100 "X" 1 1 hlt,
    (h.2.2 ⟨7⟩ 50 (by norm_num)).2 100 "X" 1 1 hlt⟩

/-! ## Claim C3 -/

/-- C3 (amended): can_open_position never approves a request when the
correlated-position count reaches max_correlated_positions — every
other outcome is a denial (some false) or a propagated exception
(none); and calculate_correlation is 0 (never a blocker) whenever
either symbol has no open position or either price history is shorter
than the 100-sample window.  The claim's reading of the remaining
branch as a percentage-return correlation does not hold: there the
source evaluates the numpy expression over (timestamp, price) tuples
and raises for histories of exactly 100 entries (see npCorrLong and
the counterexample). -/
theorem c3_correlation_gate (rm : RiskManager) (now : ℚ) (symbol : String)
    (size price : ℚ)
    (hcount : ∀ c, countCorrelated rm symbol rm.positions = some c →
      rm.max_correlated_positions ≤ c) :
    can_open_position rm now symbol size price ≠ some true ∧
    (∀ s1 s2, lookupPos rm.positions s1 = none ∨ lookupPos rm.positions s2 = none →
      calculate_correlation rm s1 s2 = .val 0) ∧
    (∀ s1 s2 p1 p2, lookupPos rm.positions s1 = some p1 →
      lookupPos rm.positions s2 = some p2 →
      p1.price_history.length < 100 ∨ p2.price_history.length < 100 →
      calculate_correlation rm s1 s2 = .val 0) := by
  refine ⟨?_, ?_, ?_⟩
  · rw [can_open_position]
    split
    · simp
    split
    · simp
    split
    · simp
    split
    · simp
    split
    · simp
    split
    · simp
    split
    · simp
    rename_i c heq hx
    exact absurd (hcount c heq) hx
  · intro s1 s2 h
    cases hls : lookupPos rm.positions s1 with
    | none => simp [calculate_correlation, hls]
    | some p1 =>
      rcases h with h | h
      · rw [hls] at h; exact absurd h (by simp)
      · simp [calculate_correlation, hls, h]
  · intro s1 s2 p1 p2 h1 h2 hor
    simp only [calculate_correlation, h1, h2]
    rw [if_pos hor]

/-- A price history of exactly the 100-sample window. -/
def hist100 : List (ℚ × ℚ) := List.replicate 100 (1, 50000)

/-- Open position whose history has exactly 100 entries. -/
def pos3 : Position :=
  { symbol := "A"
    side := "long"
    entry_price := 50000
    size := 1/10
    take_profit := 51000
    stop_loss := 49000
    current_price := 0
    unrealized_pnl := 0
    price_history := [] }

/-- Risk state for the C3 counterexample: one open position whose
price history has exactly 100 entries, and max_correlated_positions
set to 0 so that the claim demands denial unconditionally. -/
def rm3 : RiskManager :=
  { max_position_size := 1/20
    max_total_risk := 1/2
    max_correlated_positions := 0
    max_drawdown_pct := 10
    pause_after_losses := 3
    initial_balance := 100000
    current_balance := 100000
    peak_balance := 100000
    positions := [("A", { pos3 with price_history := hist100 })]
    trades_history := []
    daily_pnl := []
    consecutive_losses := 0
    is_trading_allowed := true
    trading_paused_until := 0 }

/-- C3 counterexample: with max_correlated_positions = 0 the claim
requires can_open_position to return false (any count is ≥ 0), but on
a symbol whose open position carries a 100-entry history the
correlation loop raises a numpy broadcasting ValueError — the 100-entry
diff of (timestamp, price) tuples is divided by a 99-row slice — so the
call propagates an exception instead of returning false. -/
theorem c3_counterexample : can_open_position rm3 10 "A" (1/100) 50000 = none := by
  norm_num [can_open_position, calculate_drawdown, rm3, countCorrelated,
    calculate_correlation, lookupPos, hist100, pos3, List.find?]

/-- Risk state for the C3 witness: no open positions and a correlated
cap of 0, so the count (zero) meets the cap. -/
def rm3w : RiskManager :=
  { max_position_size := 1/20
    max_total_risk := 1/2
    max_correlated_positions := 0
    max_drawdown_pct := 10
    pause_after_losses := 3
    initial_balance := 100000
    current_balance := 100000
    peak_balance := 100000
    positions := []
    trades_history := []
    daily_pnl := []
    consecutive_losses := 0
    is_trading_allowed := true
    trading_paused_until := 0 }

/-- C3 witness: the amended theorem applied at a concrete state whose
correlated cap is met. -/
theorem c3_witness : can_open_position rm3w 10 "B" 1 1 ≠ some true :=
  (c3_correlation_gate rm3w 10 "B" 1 1 (fun c _ => Nat.zero_le c)).1

/-! ## Claim C5 -/

/-- C5 (amended): with market conditions valid and the strategy not
paused, a fused signal is produced exactly when both sub-strategies
emit in the same evaluation: two long signals fuse into a signal with
confidence "high" whose entry price is the higher (less favorable) of
the two entries; and whenever either sub-strategy emits nothing in the
current evaluation the call returns no signal, regardless of any
pending signal held from an earlier evaluation — a pending signal is
recorded and pruned after the confirmation window but never promoted. -/
theorem c5_fusion_same_call_only (st : CompositeState) (symbol : String) (now : ℚ)
    (book : OrderBook) (hp : st.is_paused = false)
    (hv : validate_market_conditions book = some true) :
    (∀ s1 s2 : SubSignal, s1.side = "long" → s2.side = "long" →
      ∃ st2, should_open_position st symbol now book (some s1) (some s2) =
        some (some
          { side := "long"
            entry_price := max s1.entry_price s2.entry_price
            take_profit := max s1.entry_price s2.entry_price * (1 + st.take_profit_pct)
            stop_loss := max s1.entry_price s2.entry_price * (1 - st.stop_loss_pct)
            timestamp := now
            confidence := "high" }, st2)) ∧
    (∀ imb imp : Option SubSignal, imb = none ∨ imp = none →
      (should_open_position st symbol now book imb imp).map Prod.fst = some none) := by
  constructor
  · intro s1 s2 h1 h2
    refine ⟨({ st with
      pending_signals := prunePending st.pending_signals now st.confirmation_window }),
      ?_⟩
    rw [should_open_position, if_neg (by rw [hp]; exact Bool.false_ne_true)]
    rw [hv]
    have hside : s1.side = s2.side := by rw [h1, h2]
    simp only [if_pos hside]
    rw [fuseSignals]
    simp [h1]
  · intro imb imp h
    have hred : ∀ imb2 imp2 : Option SubSignal, imb2 = none ∨ imp2 = none →
        should_open_position st symbol now book imb2 imp2 =
          some (none, storePending
            ({ st with pending_signals :=
                prunePending st.pending_signals now st.confirmation_window })
            symbol now imb2 imp2) := by
      intro imb2 imp2 h2
      rw [should_open_position, if_neg (by rw [hp]; exact Bool.false_ne_true), hv]
      rcases h2 with h2 | h2 <;> subst h2
      · cases imp2 <;> rfl
      · cases imb2 <;> rfl
    rw [hred imb imp h]
    rfl

/-- Order book satisfying the composite market-condition gate. -/
def book5 : OrderBook :=
  { symbol := "BTC"
    bids := [⟨100000, 200⟩]
    asks := [⟨100050, 200⟩] }

/-- Composite strategy state before any signal. -/
def st5 : CompositeState :=
  { is_paused := false
    confirmation_window := 15
    take_profit_pct := 1/250
    stop_loss_pct := 1/500
    pending_signals := [] }

/-- First sub-signal (imbalance, long). -/
def sig5a : SubSignal := ⟨"long", 100000⟩

/-- Second sub-signal (impulse, long). -/
def sig5b : SubSignal := ⟨"long", 100010⟩

/-- The state holding the pending imbalance signal stored at time 0. -/
def st5a : CompositeState :=
  { st5 with pending_signals := [("BTC", ⟨"imbalance", sig5a, 0⟩)] }

/-- C5 counterexample: at time 0 only the imbalance sub-strategy emits
a long signal, which is stored as pending; at time 5 — well inside the
15-second confirmation window — the impulse sub-strategy emits an
agreeing long signal, yet should_open_position returns no signal at
all (the pending entry is not even consumed): the promotion the claim
describes never happens. -/
theorem c5_counterexample :
    should_open_position st5 "BTC" 0 book5 (some sig5a) none = some (none, st5a) ∧
    should_open_position st5a "BTC" 5 book5 none (some sig5b) = some (none, st5a) := by
  constructor
  · norm_num [should_open_position, st5, st5a, book5, validate_market_conditions,
      prunePending, storePending, sig5a]
  · norm_num [should_open_position, st5, st5a, book5, validate_market_conditions,
      prunePending, storePending, sig5a, sig5b, List.filter, List.any]

/-- C5 witness: the amended theorem applied to the concrete state,
book and pair of long sub-signals. -/
theorem c5_witness :
    ∃ st2, should_open_position st5 "BTC" 0 book5 (some sig5a) (some sig5b) =
      some (some
        { side := "long"
          entry_price := max sig5a.entry_price sig5b.entry_price
          take_profit := max sig5a.entry_price sig5b.entry_price * (1 + st5.take_profit_pct)
          stop_loss := max sig5a.entry_price sig5b.entry_price * (1 - st5.stop_loss_pct)
          timestamp := 0
          confidence := "high" }, st2) :=
  (c5_fusion_same_call_only st5 "BTC" 0 book5 rfl
    (by norm_num [validate_market_conditions, book5])).1 sig5a sig5b rfl rfl

/-! ## Claim C7 -/

/-- C7: with balance 100000, max_position_size 0.05, trading allowed,
no pause in effect, drawdown below the limit, no open positions, the
size cap below the total-risk cap and a correlated-position allowance
of at least one: a request for size 1 at price 50000 (half the
balance) is denied, a request for size 0.01 at price 50000 (half a
percent) is approved, and in general approval holds exactly when
size * price / balance stays within max_position_size. -/
theorem c7_position_size_gate (rm : RiskManager) (now : ℚ)
    (hallow : rm.is_trading_allowed = true)
    (hpause : rm.trading_paused_until ≤ now)
    (hdd : calculate_drawdown rm < rm.max_drawdown_pct)
    (hpos : rm.positions = [])
    (hbal : rm.current_balance = 100000)
    (hmax : rm.max_position_size = 1/20)
    (hrisk : rm.max_position_size ≤ rm.max_total_risk)
    (hcorr : 1 ≤ rm.max_correlated_positions) :
    can_open_position rm now "X" 1 50000 = some false ∧
    can_open_position rm now "X" (1/100) 50000 = some true ∧
    (∀ size price : ℚ, can_open_position rm now "X" size price = some true ↔
      size * price / 100000 ≤ 1/20) := by
  have h20 : (1 : ℚ)/20 ≤ rm.max_total_risk := hmax ▸ hrisk
  have hkey : ∀ size price : ℚ,
      can_open_position rm now "X" size price =
        (if size * price / 100000 > 1/20 then some false
         else if size * price / 100000 > rm.max_total_risk then some false
         else some true) := by
    intro size price
    rw [can_open_position, if_neg (by rw [hallow]; simp),
      if_neg (not_lt.mpr hpause), if_neg (not_le.mpr hdd),
      if_neg (by rw [hbal]; norm_num), hbal, hmax]
    simp only [hpos, List.map_nil, List.sum_nil, zero_add,
      show countCorrelated rm "X" [] = some 0 from rfl]
    have hc : ¬ ((0 : ℕ) ≥ rm.max_correlated_positions) := by omega
    rw [if_neg hc]
  refine ⟨?_, ?_, ?_⟩
  · rw [hkey 1 50000, if_pos (by norm_num)]
  · rw [hkey (1/100) 50000, if_neg (by norm_num),
      if_neg (by rw [not_lt]; calc (1:ℚ)/100 * 50000 / 100000 = 1/200 := by norm_num
        _ ≤ 1/20 := by norm_num
        _ ≤ rm.max_total_risk := h20)]
  · intro size price
    rw [hkey size price]
    constructor
    · intro h
      by_contra hgt
      rw [if_pos (not_le.mp hgt)] at h
      exact absurd h (by simp)
    · intro hle
      rw [if_neg (not_lt.mpr hle), if_neg (not_lt.mpr (le_trans hle h20))]

/-- Risk state for the C7 witness. -/
def rm7 : RiskManager :=
  { max_position_size := 1/20
    max_total_risk := 1/2
    max_correlated_positions := 3
    max_drawdown_pct := 40
    pause_after_losses := 10
    initial_balance := 100000
    current_balance := 100000
    peak_balance := 100000
    positions := []
    trades_history := []
    daily_pnl := []
    consecutive_losses := 0
    is_trading_allowed := true
    trading_paused_until := 0 }

/-- C7 witness: the theorem applied at the concrete risk state. -/
theorem c7_witness :
    can_open_position rm7 5 "X" 1 50000 = some false ∧
    can_open_position rm7 5 "X" (1/100) 50000 = some true :=
  ⟨(c7_position_size_gate rm7 5 rfl (by decide)
      (by norm_num [calculate_drawdown, rm7]) rfl rfl rfl (by norm_num [rm7])
      (by decide)).1,
   (c7_position_size_gate rm7 5 rfl (by decide)
      (by norm_num [calculate_drawdown, rm7]) rfl rfl rfl (by norm_num [rm7])
      (by decide)).2.1⟩

/-! ## Claim C9 -/

theorem lookupPos_updateAssoc_self (l : List (String × Position)) (k : String)
    (v : Position) : lookupPos (updateAssoc l k v) k = some v := by
  induction l with
  | nil => simp [updateAssoc, lookupPos, List.find?]
  | cons kv t ih =>
    by_cases hk : kv.1 = k
    · simp [updateAssoc, hk, lookupPos, List.find?]
    · simp only [updateAssoc, if_neg hk]
      simp only [lookupPos, List.find?] at ih ⊢
      rw [show (decide (kv.1 = k)) = false by simp [hk]]
      exact ih

theorem length_updateAssoc (l : List (String × Position)) (k : String)
    (v old : Position) (h : lookupPos l k = some old) :
    (updateAssoc l k v).length = l.length := by
  induction l with
  | nil => simp [lookupPos, List.find?] at h
  | cons kv t ih =>
    by_cases hk : kv.1 = k
    · simp [updateAssoc, hk]
    · simp only [updateAssoc, if_neg hk, List.length_cons]
      simp only [lookupPos, List.find?] at h
      rw [show (decide (kv.1 = k)) = false by simp [hk]] at h
      rw [ih h]

/-- C9: when open_position is called for a symbol that already holds an
open position, the risk check approves and the exchange reports a fill,
the freshly built position replaces the stored one in the open-position
map: the result is the new position, the map still has the same number
of entries but now yields the new position for the symbol, and the risk
manager state is completely untouched — the displaced position is never
closed, its PnL is never realized, and on_trade_closed is never
invoked.  Neither open_position nor can_open_position inspects whether
the symbol already has an open position (the witness exhibits an
approval in exactly that situation). -/
theorem c9_overwrite_without_close (st : PMState) (now : ℚ) (sig : Signal)
    (ord : OrderResult) (old : Position)
    (hold : lookupPos st.positions sig.symbol = some old)
    (hok : can_open_position st.risk now sig.symbol sig.size sig.entry_price =
      some true)
    (hfill : ord.status = "filled") :
    (open_position st now sig ord).1 = some (mkPositionFromFill sig ord) ∧
    lookupPos (open_position st now sig ord).2.positions sig.symbol =
      some (mkPositionFromFill sig ord) ∧
    (open_position st now sig ord).2.positions.length = st.positions.length ∧
    (open_position st now sig ord).2.risk = st.risk := by
  rw [open_position, hok]
  simp only [if_pos hfill]
  refine ⟨?_, ?_, ?_, ?_⟩
  · trivial
  · exact lookupPos_updateAssoc_self st.positions sig.symbol _
  · exact length_updateAssoc st.positions sig.symbol _ old hold
  · trivial

/-- Risk state for the C9 witness (its own position map is empty: the
source risk manager's map is populated independently of the position
manager's). -/
def rm9 : RiskManager :=
  { max_position_size := 1/20
    max_total_risk := 1/2
    max_correlated_positions := 3
    max_drawdown_pct := 40
    pause_after_losses := 10
    initial_balance := 100000
    current_balance := 100000
    peak_balance := 100000
    positions := []
    trades_history := []
    daily_pnl := []
    consecutive_losses := 0
    is_trading_allowed := true
    trading_paused_until := 0 }

/-- The position already open for symbol X in the C9 witness. -/
def pos9 : Position :=
  { symbol := "X"
    side := "long"
    entry_price := 48000
    size := 1/100
    take_profit := 49000
    stop_loss := 47000
    current_price := 48500
    unrealized_pnl := 5
    price_history := [(1, 48500)] }

/-- Position-manager state for the C9 witness. -/
def pm9 : PMState :=
  { risk := rm9
    positions := [("X", pos9)] }

/-- Signal for the C9 witness: same symbol X. -/
def sig9 : Signal :=
  { symbol := "X"
    side := "long"
    entry_price := 50000
    size := 1/100
    take_profit := 51000
    stop_loss := 49000 }

/-- Filled order for the C9 witness. -/
def ord9 : OrderResult :=
  { status := "filled"
    price := 50000
    size := 1/100 }

/-- C9 witness: the theorem applied at a concrete state that already
holds a position for the signal symbol. -/
theorem c9_witness :
    (open_position pm9 5 sig9 ord9).1 = some (mkPositionFromFill sig9 ord9) ∧
    lookupPos (open_position pm9 5 sig9 ord9).2.positions sig9.symbol =
      some (mkPositionFromFill sig9 ord9) ∧
    (open_position pm9 5 sig9 ord9).2.positions.length = pm9.positions.length ∧
    (open_position pm9 5 sig9 ord9).2.risk = pm9.risk :=
  c9_overwrite_without_close pm9 5 sig9 ord9 pos9
    (by norm_num [lookupPos, List.find?, pm9, sig9])
    (by norm_num [can_open_position, calculate_drawdown, countCorrelated,
      calculate_correlation, lookupPos, List.find?, pm9, rm9, sig9])
    rfl

/-! ## Claim C10 -/

theorem corrRow_some (rm : RiskManager) (s : String)
    (hnoerr : ∀ a b : String, calculate_correlation rm a b ≠ .err) :
    ∀ l : List String, ∃ r, corrRow rm s l = some r := by
  intro l
  induction l with
  | nil => exact ⟨[], rfl⟩
  | cons t ts ih =>
    obtain ⟨r, hr⟩ := ih
    cases hc : calculate_correlation rm s t with
    | err => exact absurd hc (hnoerr s t)
    | val q => exact ⟨(t, .val q) :: r, by rw [corrRow, hc, hr]; rfl⟩
    | nan => exact ⟨(t, .nan) :: r, by rw [corrRow, hc, hr]; rfl⟩

theorem corrMatrixAux_some (rm : RiskManager)
    (hnoerr : ∀ a b : String, calculate_correlation rm a b ≠ .err) :
    ∀ l : List String, ∃ m, corrMatrixAux rm l = some m := by
  intro l
  induction l with
  | nil => exact ⟨[], rfl⟩
  | cons s rest ih =>
    obtain ⟨m, hm⟩ := ih
    obtain ⟨r, hr⟩ := corrRow_some rm s hnoerr rest
    exact ⟨(s, r) :: m, by rw [corrMatrixAux, hr, hm]; rfl⟩

theorem corrPenalty_some (rm : RiskManager) (symbol : String)
    (hnoerr : ∀ a b : String, calculate_correlation rm a b ≠ .err) :
    ∀ l : List (String × Position), ∃ p, corrPenalty rm symbol l = some p := by
  intro l
  induction l with
  | nil => exact ⟨1, rfl⟩
  | cons kv rest ih =>
    obtain ⟨p, hp⟩ := ih
    cases hc : calculate_correlation rm symbol kv.1 with
    | err => exact absurd hc (hnoerr symbol kv.1)
    | val q => exact ⟨min p (1 - |q|), by rw [corrPenalty, hc, hp]; rfl⟩
    | nan => exact ⟨p, by rw [corrPenalty, hc]; exact hp⟩

/-- C10: whenever the trade history holds no losing trade (the empty
history included), the computed profit factor is 0, so the performance
factor min(1, profitFactor/2) vanishes and adjust_position_size clamps
up to exactly 20 percent of the base size, for every positive base size
and every symbol — an all-winning history floors position sizing.  The
side conditions rule out the exception paths: a nonzero drawdown limit
(otherwise the drawdown factor divides by zero) and no correlation
ValueError (satisfied, e.g., whenever no open position pair carries a
price history of 100 or more entries). -/
theorem c10_all_winning_floors_size (rm : RiskManager) (base : ℚ) (symbol : String)
    (hb : 0 < base)
    (hwin : ∀ r ∈ rm.trades_history, ¬ r.pnl < 0)
    (hdd : rm.max_drawdown_pct ≠ 0)
    (hnoerr : ∀ a b : String, calculate_correlation rm a b ≠ .err) :
    (∃ m, calculate_risk_metrics rm = some m ∧ m.profit_factor = 0) ∧
    adjust_position_size rm base symbol = some (base * (1/5)) := by
  obtain ⟨mat, hmat⟩ := corrMatrixAux_some rm hnoerr (rm.positions.map (fun kv => kv.1))
  obtain ⟨pen, hpen⟩ := corrPenalty_some rm symbol hnoerr rm.positions
  have hfilter : rm.trades_history.filter (fun t => t.pnl < 0) = [] := by
    rw [List.filter_eq_nil_iff]
    intro a ha
    simpa using hwin a ha
  have hm : calculate_risk_metrics rm = some
      { total_exposure :=
          (rm.positions.map (fun kv => |kv.2.size * kv.2.current_price|)).sum
        max_drawdown := calculate_drawdown rm
        daily_loss := |min 0 (rm.daily_pnl.getLastD 0)|
        win_rate :=
          if rm.trades_history.isEmpty then 0
          else ((rm.trades_history.filter (fun t => t.pnl > 0)).length : ℚ) /
            (rm.trades_history.length : ℚ)
        profit_factor := 0
        sharpe_value := sharpeOf rm.daily_pnl
        correlation_matrix := mat } := by
    simp only [calculate_risk_metrics, hmat, hfilter]
    norm_num
  refine ⟨⟨_, hm, rfl⟩, ?_⟩
  rw [adjust_position_size, hm]
  simp only [if_neg hdd, hpen]
  have hperf : min (1 : ℚ) (0 / 2) = 0 := by norm_num
  have hzero : base * max 0 (1 - calculate_drawdown rm / rm.max_drawdown_pct) *
      pen * min (1 : ℚ) (0 / 2) = 0 := by rw [hperf, mul_zero]
  rw [hzero]
  have h32 : min (0 : ℚ) (base * (3/2)) = 0 := min_eq_left (by linarith)
  have h15 : max (base * (1/5)) (0 : ℚ) = base * (1/5) := max_eq_left (by linarith)
  rw [h32, h15]

/-- Risk state for the C10 witness: a single profitable trade in the
history and no open positions. -/
def rm10 : RiskManager :=
  { max_position_size := 1/20
    max_total_risk := 1/2
    max_correlated_positions := 3
    max_drawdown_pct := 10
    pause_after_losses := 3
    initial_balance := 100000
    current_balance := 100000
    peak_balance := 100000
    positions := []
    trades_history := [⟨5⟩]
    daily_pnl := [5]
    consecutive_losses := 0
    is_trading_allowed := true
    trading_paused_until := 0 }

/-- C10 witness: the theorem applied at the concrete all-winning
state. -/
theorem c10_witness : adjust_position_size rm10 1 "Z" = some (1 * (1/5)) :=
  (c10_all_winning_floors_size rm10 1 "Z" (by decide) (by decide) (by decide)
    (fun a b => by simp [calculate_correlation, lookupPos, List.find?, rm10])).2

end TradingBot
